import Mathlib

/-!
# Verification of the `buildit-agent-demo` QA agent (`src/agent.py`)

Shallow embedding of the agent's core workflow and proofs about it:

* Python string primitives (`str.split`, `str.strip`, substring membership)
  are embedded over `List Char`, mirroring CPython semantics for non-empty
  separators (left-to-right, non-overlapping matches).
* The payload-extraction tail of `_generate_test_plan` (lines 161-167),
  including the possibility of an out-of-range list index (modelled as
  `Option`, `none` standing for a raised `IndexError`).
* The `tenacity` retry policy on `_generate_test_plan` (lines 140-150):
  `stop_after_attempt(5)`, `wait_fixed(3)`,
  `retry_if_exception_type(ollama.ResponseError)`, `reraise=True`.
* `_ensure_model_available` (lines 120-138) and the `QAAgent.run`
  orchestrator (lines 95-118), with the emitted structured log events and
  the process exit code made explicit.

The external `ollama` client is an oracle (`OllamaClient`): each operation's
outcome is an input to the embedded program, with generation outcomes
indexed by the attempt number.
-/

namespace BuilditAgent

/-! ## Python string primitives over `List Char` -/

/-- Python whitespace for `str.strip` (ASCII subset relevant here). -/
def pyIsSpace (c : Char) : Bool :=
  c == ' ' || c == '\t' || c == '\n' || c == '\r' || c == '\x0b' || c == '\x0c'

/-- Left half of Python `str.strip`. -/
def stripLeft (s : List Char) : List Char := s.dropWhile pyIsSpace

/-- Right half of Python `str.strip`. -/
def stripRight (s : List Char) : List Char := (s.reverse.dropWhile pyIsSpace).reverse

/-- Python `str.strip()`. -/
def pyStrip (s : List Char) : List Char := stripRight (stripLeft s)

/-- Worker for Python `str.split(sep)` with a non-empty separator:
scan left to right, cutting at each non-overlapping occurrence of `sep`.
`acc` holds the (reversed) characters of the current piece. -/
def splitOnAux (sep : List Char) : List Char → List Char → List (List Char)
  | [], acc => [acc.reverse]
  | c :: rest, acc =>
    if sep.isPrefixOf (c :: rest) = true then
      acc.reverse :: splitOnAux sep (rest.drop (sep.length - 1)) []
    else
      splitOnAux sep rest (c :: acc)
termination_by s _ => s.length
decreasing_by
  · simp only [List.length_drop, List.length_cons]
    omega
  · simp only [List.length_cons]
    omega

/-- Python `s.split(sep)` (non-empty `sep`). -/
def pySplit (s sep : List Char) : List (List Char) := splitOnAux sep s []

/-- Python substring membership `sub in s`. -/
def containsSub (sub : List Char) : List Char → Bool
  | [] => sub.isEmpty
  | c :: rest => sub.isPrefixOf (c :: rest) || containsSub sub rest

/-! ## Specification-side scanning combinators

Used to characterize `pySplit` and to state extraction properties in the
spec's vocabulary ("the substring before/after the first occurrence"). -/

/-- The characters strictly before the first occurrence of `sep`
(the whole string if `sep` does not occur). -/
def beforeFirst (sep : List Char) : List Char → List Char
  | [] => []
  | c :: rest =>
    if sep.isPrefixOf (c :: rest) = true then []
    else c :: beforeFirst sep rest

/-- The characters strictly after the first occurrence of `sep`
(empty if `sep` does not occur). -/
def afterFirst (sep : List Char) : List Char → List Char
  | [] => []
  | c :: rest =>
    if sep.isPrefixOf (c :: rest) = true then rest.drop (sep.length - 1)
    else afterFirst sep rest

theorem splitOnAux_spec (sep : List Char) (hs : sep ≠ []) :
    ∀ (n : Nat) (s acc : List Char), s.length ≤ n →
      splitOnAux sep s acc =
        (acc.reverse ++ beforeFirst sep s) ::
          (if containsSub sep s = true then splitOnAux sep (afterFirst sep s) [] else []) := by
  intro n
  induction n with
  | zero =>
    intro s acc h
    have hnil : s = [] := List.length_eq_zero.mp (Nat.le_zero.mp h)
    subst hnil
    have hne : sep.isEmpty = false := by
      cases sep with
      | nil => exact absurd rfl hs
      | cons a l => rfl
    simp [splitOnAux, beforeFirst, containsSub, hne]
  | succ n ih =>
    intro s acc h
    cases s with
    | nil =>
      have hne : sep.isEmpty = false := by
        cases sep with
        | nil => exact absurd rfl hs
        | cons a l => rfl
      simp [splitOnAux, beforeFirst, containsSub, hne]
    | cons c rest =>
      by_cases hp : sep.isPrefixOf (c :: rest) = true
      · rw [splitOnAux, beforeFirst, afterFirst]
        simp [hp, containsSub]
      · have hlen : rest.length ≤ n := by
          simp only [List.length_cons] at h
          omega
        rw [splitOnAux, beforeFirst, afterFirst]
        simp only [hp, if_false, Bool.false_eq_true]
        rw [ih rest (c :: acc) hlen]
        have hc : containsSub sep (c :: rest) = containsSub sep rest := by
          simp [containsSub, hp]
        simp [hc, List.reverse_cons, List.append_assoc]

theorem pySplit_eq (sep : List Char) (hs : sep ≠ []) (s : List Char) :
    pySplit s sep =
      beforeFirst sep s ::
        (if containsSub sep s = true then pySplit (afterFirst sep s) sep else []) := by
  rw [pySplit, splitOnAux_spec sep hs s.length s [] le_rfl]
  simp [pySplit]

theorem pySplit_get_zero (sep : List Char) (hs : sep ≠ []) (s : List Char) :
    (pySplit s sep)[0]? = some (beforeFirst sep s) := by
  rw [pySplit_eq sep hs s]
  simp

theorem pySplit_get_one (sep : List Char) (hs : sep ≠ []) (s : List Char)
    (h : containsSub sep s = true) :
    (pySplit s sep)[1]? = some (beforeFirst sep (afterFirst sep s)) := by
  rw [pySplit_eq sep hs s, h]
  simp only [if_true]
  rw [pySplit_eq sep hs (afterFirst sep s)]
  simp

/-! ## Payload extraction (`_generate_test_plan`, lines 161-167)

```python
if "```gherkin" in response_text:
    return response_text.split("```gherkin")[1].split("```")[0].strip()
elif "```" in response_text:
    return response_text.split("```")[1].strip()
else:
    return response_text
```

Python list indexing `xs[1]` raises `IndexError` when the list is too
short; that possibility is modelled by `Option`, with `none` standing for
the raised exception. -/

/-- The language-tagged fence opener the code searches for. -/
def gherkinOpen : List Char := "```gherkin".toList

/-- The generic three-backtick fence delimiter. -/
def fenceDelim : List Char := "```".toList

/-- Embedding of the extraction tail of `_generate_test_plan`.
`none` models a raised `IndexError` (proved unreachable below). -/
def extractPayload (response_text : List Char) : Option (List Char) :=
  if containsSub gherkinOpen response_text = true then
    match (pySplit response_text gherkinOpen)[1]? with
    | none => none
    | some seg =>
      match (pySplit seg fenceDelim)[0]? with
      | none => none
      | some inner => some (pyStrip inner)
  else if containsSub fenceDelim response_text = true then
    match (pySplit response_text fenceDelim)[1]? with
    | none => none
    | some seg => some (pyStrip seg)
  else
    some response_text

/-- Specification-side restatement of the extraction rules, written with the
first-occurrence scanning combinators: if a gherkin-tagged opener occurs, take
the text after the first opener (truncated before a second gherkin opener, if
any), truncate that at the first closing delimiter, and trim; else if a generic
delimiter occurs, take the text between the first delimiter and the next one
(to the end if there is no second delimiter) and trim; else return the raw
text unchanged. -/
def extractSpec (t : List Char) : List Char :=
  if containsSub gherkinOpen t = true then
    pyStrip (beforeFirst fenceDelim (beforeFirst gherkinOpen (afterFirst gherkinOpen t)))
  else if containsSub fenceDelim t = true then
    pyStrip (beforeFirst fenceDelim (afterFirst fenceDelim t))
  else t

theorem gherkinOpen_ne_nil : gherkinOpen ≠ [] := by decide

theorem fenceDelim_ne_nil : fenceDelim ≠ [] := by decide

theorem extractPayload_gherkin (t : List Char)
    (hg : containsSub gherkinOpen t = true) :
    extractPayload t =
      some (pyStrip (beforeFirst fenceDelim (beforeFirst gherkinOpen (afterFirst gherkinOpen t)))) := by
  rw [extractPayload, if_pos hg,
    pySplit_get_one gherkinOpen gherkinOpen_ne_nil t hg]
  simp only [pySplit_get_zero fenceDelim fenceDelim_ne_nil]

theorem extractPayload_generic (t : List Char)
    (hg : containsSub gherkinOpen t = false)
    (hf : containsSub fenceDelim t = true) :
    extractPayload t =
      some (pyStrip (beforeFirst fenceDelim (afterFirst fenceDelim t))) := by
  rw [extractPayload, if_neg (by simp [hg]), if_pos hf,
    pySplit_get_one fenceDelim fenceDelim_ne_nil t hf]

theorem extractPayload_raw (t : List Char)
    (hg : containsSub gherkinOpen t = false)
    (hf : containsSub fenceDelim t = false) :
    extractPayload t = some t := by
  rw [extractPayload, if_neg (by simp [hg]), if_neg (by simp [hf])]

/-- The extraction code agrees everywhere with its first-occurrence
description: in particular it never hits the `IndexError` case. -/
theorem extractPayload_eq_extractSpec (t : List Char) :
    extractPayload t = some (extractSpec t) := by
  by_cases hg : containsSub gherkinOpen t = true
  · rw [extractPayload_gherkin t hg, extractSpec, if_pos hg]
  · have hg' : containsSub gherkinOpen t = false := by
      cases h : containsSub gherkinOpen t
      · rfl
      · exact absurd h hg
    by_cases hf : containsSub fenceDelim t = true
    · rw [extractPayload_generic t hg' hf, extractSpec, if_neg (by simp [hg']), if_pos hf]
    · have hf' : containsSub fenceDelim t = false := by
        cases h : containsSub fenceDelim t
        · rfl
        · exact absurd h hf
      rw [extractPayload_raw t hg' hf', extractSpec, if_neg (by simp [hg']),
        if_neg (by simp [hf'])]

/-! ### Containment and scanning lemmas -/

theorem isPrefixOf_trans :
    ∀ (l1 l2 l3 : List Char), l1.isPrefixOf l2 = true → l2.isPrefixOf l3 = true →
      l1.isPrefixOf l3 = true
  | [], _, _, _, _ => by simp [List.isPrefixOf]
  | a :: l1, [], l3, h12, _ => by simp [List.isPrefixOf] at h12
  | a :: l1, b :: l2, [], _, h23 => by simp [List.isPrefixOf] at h23
  | a :: l1, b :: l2, c :: l3, h12, h23 => by
    simp only [List.isPrefixOf, Bool.and_eq_true, beq_iff_eq] at h12 h23 ⊢
    exact ⟨h12.1.trans h23.1, isPrefixOf_trans l1 l2 l3 h12.2 h23.2⟩

/-- If a superstring pattern occurs, so does any of its prefixes. -/
theorem containsSub_of_prefix (sub1 sub2 : List Char)
    (hp : sub1.isPrefixOf sub2 = true) :
    ∀ s, containsSub sub2 s = true → containsSub sub1 s = true := by
  intro s
  induction s with
  | nil =>
    intro h
    simp only [containsSub, List.isEmpty_iff] at h ⊢
    subst h
    cases sub1 with
    | nil => rfl
    | cons a l => simp [List.isPrefixOf] at hp
  | cons c rest ih =>
    intro h
    simp only [containsSub, Bool.or_eq_true] at h ⊢
    rcases h with h | h
    · exact Or.inl (isPrefixOf_trans sub1 sub2 (c :: rest) hp h)
    · exact Or.inr (ih h)

theorem beforeFirst_of_not_contains (sep : List Char) :
    ∀ s, containsSub sep s = false → beforeFirst sep s = s := by
  intro s
  induction s with
  | nil => intro _; rfl
  | cons c rest ih =>
    intro h
    simp only [containsSub, Bool.or_eq_false_iff] at h
    rw [beforeFirst, if_neg (by simp [h.1]), ih h.2]

/-! ## Error taxonomy and the `tenacity` retry policy (lines 140-150)

```python
@retry(
    stop=stop_after_attempt(5),
    wait=wait_fixed(3),
    retry=retry_if_exception_type(ollama.ResponseError),
    reraise=True,
    before_sleep=...,
)
```
-/

/-- Exceptions that can escape one generation attempt:
`ollama.ResponseError`, or an exception of any other class
(e.g. a transport/connectivity failure), identified by class name. -/
inductive GenError where
  | responseError (msg : String)
  | otherError (kind : String) (msg : String)
deriving DecidableEq

/-- The retry predicate `retry_if_exception_type(ollama.ResponseError)`. -/
def isRetryableError : GenError → Bool
  | .responseError _ => true
  | .otherError _ _ => false

/-- Outcome of one `tenacity`-wrapped call: final result, total number of
attempts made, and the sleeps performed between attempts. -/
structure RetryRun (α : Type) where
  result : Except GenError α
  attempts : Nat
  sleeps : List Nat

/-- One `tenacity` retry loop: run attempt `attempt`; on success stop; on a
retryable failure, stop and re-raise if no attempts remain
(`stop_after_attempt`), otherwise sleep `delay` (`wait_fixed`) and try again;
a non-retryable failure propagates at once. `remaining` counts the attempts
still allowed after the current one. -/
def tenacityLoop (delay : Nat) (call : Nat → Except GenError α) :
    Nat → Nat → List Nat → RetryRun α
  | attempt, remaining, sleeps =>
    match call attempt with
    | .ok a => ⟨.ok a, attempt, sleeps⟩
    | .error e =>
      if isRetryableError e = true then
        match remaining with
        | 0 => ⟨.error e, attempt, sleeps⟩
        | r + 1 => tenacityLoop delay call (attempt + 1) r (sleeps ++ [delay])
      else ⟨.error e, attempt, sleeps⟩

/-- `@retry(stop=stop_after_attempt(maxAttempts), wait=wait_fixed(delay),
retry=retry_if_exception_type(ollama.ResponseError), reraise=True)`. -/
def runWithTenacityRetry (maxAttempts delay : Nat) (call : Nat → Except GenError α) :
    RetryRun α :=
  tenacityLoop delay call 1 (maxAttempts - 1) []

theorem tenacityLoop_ok (delay : Nat) (call : Nat → Except GenError α)
    (attempt remaining : Nat) (sleeps : List Nat) (a : α)
    (h : call attempt = .ok a) :
    tenacityLoop delay call attempt remaining sleeps = ⟨.ok a, attempt, sleeps⟩ := by
  rw [tenacityLoop, h]

theorem tenacityLoop_fail_step (delay : Nat) (call : Nat → Except GenError α)
    (attempt r : Nat) (sleeps : List Nat) (e : GenError)
    (h : call attempt = .error e) (hr : isRetryableError e = true) :
    tenacityLoop delay call attempt (r + 1) sleeps =
      tenacityLoop delay call (attempt + 1) r (sleeps ++ [delay]) := by
  rw [tenacityLoop, h]
  simp [hr]

theorem tenacityLoop_fail_stop (delay : Nat) (call : Nat → Except GenError α)
    (attempt : Nat) (sleeps : List Nat) (e : GenError)
    (h : call attempt = .error e) :
    tenacityLoop delay call attempt 0 sleeps = ⟨.error e, attempt, sleeps⟩ := by
  rw [tenacityLoop, h]
  by_cases hr : isRetryableError e = true
  · simp [hr]
  · simp [hr]

theorem tenacityLoop_fail_noretry (delay : Nat) (call : Nat → Except GenError α)
    (attempt remaining : Nat) (sleeps : List Nat) (e : GenError)
    (h : call attempt = .error e) (hr : isRetryableError e = false) :
    tenacityLoop delay call attempt remaining sleeps = ⟨.error e, attempt, sleeps⟩ := by
  rw [tenacityLoop, h]
  simp [hr]

/-! ## Requests, responses and the external client -/

/-- The arguments of the `ollama.generate(...)` call (line 153-158). -/
structure GenerationRequest where
  model : String
  prompt : String
  system : String
  stream : Bool
deriving DecidableEq

/-- The generation response; `response` is the `"response"` key, which may be
absent (`response.get("response", "")` then defaults to the empty string). -/
structure GenerationResponse where
  response : Option String

/-- One increment of a streamed pull, a dict with optional
`digest` / `completed` / `total` keys. -/
structure PullEvent where
  digest : Option String
  completed : Option Nat
  total : Option Nat
deriving DecidableEq

/-- Default model identifier (`os.getenv("OLLAMA_MODEL", "phi3:mini")`
when the environment variable is unset). -/
def MODEL : String := "phi3:mini"

/-- The hardcoded user story. -/
def USER_STORY : String :=
  "As a user, I want to log in with my email and password so I can access my account."

/-- The fixed system-level instruction block (`SYSTEM_PROMPT` in `agent.py`).
The multi-paragraph prose is presentation content (spec section 1 places the
prompt text out of scope); it is abridged here to its opening sentence, since
no claim depends on the literal text, only on the block being one fixed
constant passed in the `system` channel. -/
def SYSTEM_PROMPT : String :=
  "You are an elite QA Engineer. Your task is to generate a complete, thorough BDD feature file in Gherkin syntax based on a user story."

/-- Oracle for the external `ollama` service: the outcome of listing local
models, the outcome of the streamed pull, and the outcome of each generation
attempt (indexed by attempt number, since retried calls may differ). -/
structure OllamaClient where
  listModels : Except GenError (List String)
  pullEvents : Except GenError (List PullEvent)
  generate : GenerationRequest → Nat → Except GenError GenerationResponse

/-- The request constructed by `_generate_test_plan` (lines 153-158):
`ollama.generate(model=..., prompt=user_story, system=SYSTEM_PROMPT,
stream=False)`. -/
def mkGenerationRequest (model user_story : String) : GenerationRequest :=
  { model := model, prompt := user_story, system := SYSTEM_PROMPT, stream := false }

/-- One attempt of the body of `_generate_test_plan`: issue the generation
request, then run payload extraction on the complete response text
(`response.get("response", "")`). A `none` from extraction would be a raised
`IndexError` (proved unreachable). -/
def generateAttempt (client : OllamaClient) (model story : String) (n : Nat) :
    Except GenError String :=
  match client.generate (mkGenerationRequest model story) n with
  | .error e => .error e
  | .ok resp =>
    match extractPayload (resp.response.getD "").toList with
    | some payload => .ok (String.mk payload)
    | none => .error (.otherError "IndexError" "list index out of range")

/-- `_generate_test_plan` with its `tenacity` decorator (lines 140-158). -/
def generate_test_plan (client : OllamaClient) (model story : String) : RetryRun String :=
  runWithTenacityRetry 5 3 (generateAttempt client model story)

/-! ## Availability checker and orchestrator (lines 95-138) -/

/-- The structured log/console events the agent can emit. The constructor
`pullProgress` is never produced by the code (no per-event progress update
exists in `_ensure_model_available`); it is included so that the statement
"a progress update keyed by (completed, total) is emitted" can be expressed
and settled. -/
inductive LogEvent where
  | modelAvailable (model : String)
  | pullingModel (model : String)
  | pullProgress (completed total : Nat)
  | modelPulled (model : String) (digest : String)
  | pullFailed (model : String)
  | responseErrorReport (msg : String)
  | unexpectedErrorReport
deriving DecidableEq

/-- The loop body of the pull-progress consumer:
`if status.get("digest"): current_digest = status["digest"]`
(Python truthiness: an absent key or empty string leaves the tracker). -/
def updateDigest (acc : String) (ev : PullEvent) : String :=
  match ev.digest with
  | some d => if d = "" then acc else d
  | none => acc

/-- `current_digest` after consuming the whole event stream (lines 129-132). -/
def finalDigest (events : List PullEvent) : String := events.foldl updateDigest ""

/-- Outcome of `_ensure_model_available`: the propagated result, whether a
pull was initiated, and the emitted log events. -/
structure EnsureOutcome where
  result : Except GenError Unit
  pulled : Bool
  logs : List LogEvent

/-- Embedding of `_ensure_model_available` (lines 120-138): list the local
models; if the identifier is a member (exact string equality), return without
pulling; otherwise consume the streamed pull, tracking the most recent truthy
digest; any exception is logged (naming the model) and re-raised. -/
def ensure_model_available (client : OllamaClient) (model : String) : EnsureOutcome :=
  match client.listModels with
  | .error e => { result := .error e, pulled := false, logs := [.pullFailed model] }
  | .ok names =>
    if model ∈ names then
      { result := .ok (), pulled := false, logs := [.modelAvailable model] }
    else
      match client.pullEvents with
      | .error e =>
        { result := .error e, pulled := true,
          logs := [.pullingModel model, .pullFailed model] }
      | .ok events =>
        { result := .ok (), pulled := true,
          logs := [.pullingModel model, .modelPulled model (finalDigest events)] }

/-- Outcome of one `QAAgent.run()` invocation: the process exit status
(`sys.exit(1)` on any error, 0 on success), the payload printed to stdout,
and the emitted log events. -/
structure RunOutcome where
  exitCode : Nat
  printed : Option String
  logs : List LogEvent

/-- Embedding of `QAAgent.run` (lines 95-118): availability check, then the
retried generation; `ollama.ResponseError` is reported with its message,
any other exception is reported generically; both paths `sys.exit(1)`. -/
def runAgent (client : OllamaClient) (model story : String) : RunOutcome :=
  let ens := ensure_model_available client model
  match ens.result with
  | .error (.responseError m) =>
    { exitCode := 1, printed := none, logs := ens.logs ++ [.responseErrorReport m] }
  | .error (.otherError _ _) =>
    { exitCode := 1, printed := none, logs := ens.logs ++ [.unexpectedErrorReport] }
  | .ok _ =>
    match (generate_test_plan client model story).result with
    | .ok plan => { exitCode := 0, printed := some plan, logs := ens.logs }
    | .error (.responseError m) =>
      { exitCode := 1, printed := none, logs := ens.logs ++ [.responseErrorReport m] }
    | .error (.otherError _ _) =>
      { exitCode := 1, printed := none, logs := ens.logs ++ [.unexpectedErrorReport] }

/-- Specification-side "most recently seen (truthy) digest": the last
non-empty digest value in the stream, or `""` if there is none. -/
def lastDigestSpec (events : List PullEvent) : String :=
  ((events.filterMap fun ev => ev.digest.bind fun d => if d = "" then none else some d).getLast?).getD ""

theorem foldl_updateDigest (events : List PullEvent) :
    ∀ a : String, events.foldl updateDigest a =
      ((events.filterMap fun ev => ev.digest.bind fun d => if d = "" then none else some d).getLast?).getD a := by
  induction events with
  | nil => intro a; rfl
  | cons ev l ih =>
    intro a
    rw [List.foldl_cons, List.filterMap_cons, ih (updateDigest a ev)]
    rcases hd : ev.digest with _ | d
    · simp [updateDigest, hd]
    · by_cases he : d = ""
      · simp [updateDigest, hd, he]
      · simp only [updateDigest, hd, if_neg he, Option.bind_some]
        cases hfl : (l.filterMap fun ev => ev.digest.bind fun d => if d = "" then none else some d) with
        | nil => simp [if_neg he]
        | cons x xs =>
          have hy : ∃ y, (x :: xs).getLast? = some y :=
            Option.isSome_iff_exists.mp (by simp [List.getLast?_isSome])
          obtain ⟨y, hy⟩ := hy
          simp [if_neg he, List.getLast?_cons_cons, hy]

theorem finalDigest_eq_lastDigestSpec (events : List PullEvent) :
    finalDigest events = lastDigestSpec events :=
  foldl_updateDigest events ""

/-! ## Shared facts about single generation attempts -/

theorem generateAttempt_of_error (client : OllamaClient) (model story : String)
    (n : Nat) (e : GenError)
    (h : client.generate (mkGenerationRequest model story) n = Except.error e) :
    generateAttempt client model story n = Except.error e := by
  simp only [generateAttempt, h]

theorem generateAttempt_of_ok (client : OllamaClient) (model story : String)
    (n : Nat) (resp : GenerationResponse)
    (h : client.generate (mkGenerationRequest model story) n = Except.ok resp) :
    generateAttempt client model story n =
      Except.ok (String.mk (extractSpec (resp.response.getD "").toList)) := by
  simp only [generateAttempt, h, extractPayload_eq_extractSpec]

/-! ## Claim theorems -/

/-- Claim C1: with the retry policy of `_generate_test_plan`, a generation
call whose underlying service request raises `ollama.ResponseError` on every
attempt is attempted exactly 5 times with a fixed sleep of 3 between
consecutive attempts, after which the last error is re-raised unchanged;
a call whose request first succeeds on attempt `k ≤ 5` (after
response errors) performs exactly `k` attempts and returns the result with no
error raised. -/
theorem retry_policy_c1 (client : OllamaClient) (model story : String) :
    ((∀ n, 1 ≤ n → n ≤ 5 →
        ∃ m, client.generate (mkGenerationRequest model story) n =
          Except.error (GenError.responseError m)) →
      (generate_test_plan client model story).attempts = 5 ∧
      (generate_test_plan client model story).sleeps = [3, 3, 3, 3] ∧
      ∀ m, client.generate (mkGenerationRequest model story) 5 =
          Except.error (GenError.responseError m) →
        (generate_test_plan client model story).result =
          Except.error (GenError.responseError m))
    ∧
    (∀ (k : Nat) (resp : GenerationResponse), 1 ≤ k → k ≤ 5 →
      client.generate (mkGenerationRequest model story) k = Except.ok resp →
      (∀ j, 1 ≤ j → j < k →
        ∃ m, client.generate (mkGenerationRequest model story) j =
          Except.error (GenError.responseError m)) →
      (generate_test_plan client model story).attempts = k ∧
      (generate_test_plan client model story).result = generateAttempt client model story k ∧
      ∃ p, (generate_test_plan client model story).result = Except.ok p) := by
  set call := generateAttempt client model story with hcall
  constructor
  · intro hfail
    obtain ⟨m1, h1⟩ := hfail 1 (by omega) (by omega)
    obtain ⟨m2, h2⟩ := hfail 2 (by omega) (by omega)
    obtain ⟨m3, h3⟩ := hfail 3 (by omega) (by omega)
    obtain ⟨m4, h4⟩ := hfail 4 (by omega) (by omega)
    obtain ⟨m5, h5⟩ := hfail 5 (by omega) (by omega)
    have e1 := generateAttempt_of_error client model story 1 _ h1
    have e2 := generateAttempt_of_error client model story 2 _ h2
    have e3 := generateAttempt_of_error client model story 3 _ h3
    have e4 := generateAttempt_of_error client model story 4 _ h4
    have e5 := generateAttempt_of_error client model story 5 _ h5
    have run_eq : generate_test_plan client model story =
        ⟨Except.error (GenError.responseError m5), 5, [3, 3, 3, 3]⟩ := by
      have s1 : tenacityLoop 3 call 1 4 [] = tenacityLoop 3 call 2 3 [3] := by
        simpa using tenacityLoop_fail_step 3 call 1 3 [] _ e1 rfl
      have s2 : tenacityLoop 3 call 2 3 [3] = tenacityLoop 3 call 3 2 [3, 3] := by
        simpa using tenacityLoop_fail_step 3 call 2 2 [3] _ e2 rfl
      have s3 : tenacityLoop 3 call 3 2 [3, 3] = tenacityLoop 3 call 4 1 [3, 3, 3] := by
        simpa using tenacityLoop_fail_step 3 call 3 1 [3, 3] _ e3 rfl
      have s4 : tenacityLoop 3 call 4 1 [3, 3, 3] = tenacityLoop 3 call 5 0 [3, 3, 3, 3] := by
        simpa using tenacityLoop_fail_step 3 call 4 0 [3, 3, 3] _ e4 rfl
      have s5 : tenacityLoop 3 call 5 0 [3, 3, 3, 3] =
          ⟨Except.error (GenError.responseError m5), 5, [3, 3, 3, 3]⟩ :=
        tenacityLoop_fail_stop 3 call 5 [3, 3, 3, 3] _ e5
      calc generate_test_plan client model story
          = tenacityLoop 3 call 1 4 [] := rfl
        _ = tenacityLoop 3 call 2 3 [3] := s1
        _ = tenacityLoop 3 call 3 2 [3, 3] := s2
        _ = tenacityLoop 3 call 4 1 [3, 3, 3] := s3
        _ = tenacityLoop 3 call 5 0 [3, 3, 3, 3] := s4
        _ = ⟨Except.error (GenError.responseError m5), 5, [3, 3, 3, 3]⟩ := s5
    refine ⟨by rw [run_eq], by rw [run_eq], ?_⟩
    intro m hm
    have hmm : GenError.responseError m5 = GenError.responseError m := by
      have := h5.symm.trans hm
      simpa using this
    rw [run_eq, ← hmm]
  · intro k resp hk1 hk5 hgen herr
    have hattempt : call k = Except.ok (String.mk (extractSpec (resp.response.getD "").toList)) :=
      generateAttempt_of_ok client model story k resp hgen
    interval_cases k
    · have run_eq : generate_test_plan client model story =
          ⟨call 1, 1, []⟩ := by
        rw [hattempt]
        exact tenacityLoop_ok 3 call 1 4 [] _ hattempt
      exact ⟨by rw [run_eq], by rw [run_eq], ⟨_, by rw [run_eq, hattempt]⟩⟩
    · obtain ⟨m1, h1⟩ := herr 1 (by omega) (by omega)
      have e1 := generateAttempt_of_error client model story 1 _ h1
      have run_eq : generate_test_plan client model story = ⟨call 2, 2, [3]⟩ := by
        have s1 : tenacityLoop 3 call 1 4 [] = tenacityLoop 3 call 2 3 [3] := by
          simpa using tenacityLoop_fail_step 3 call 1 3 [] _ e1 rfl
        calc generate_test_plan client model story
            = tenacityLoop 3 call 1 4 [] := rfl
          _ = tenacityLoop 3 call 2 3 [3] := s1
          _ = ⟨call 2, 2, [3]⟩ := by rw [hattempt]; exact tenacityLoop_ok 3 call 2 3 [3] _ hattempt
      exact ⟨by rw [run_eq], by rw [run_eq], ⟨_, by rw [run_eq, hattempt]⟩⟩
    · obtain ⟨m1, h1⟩ := herr 1 (by omega) (by omega)
      obtain ⟨m2, h2⟩ := herr 2 (by omega) (by omega)
      have e1 := generateAttempt_of_error client model story 1 _ h1
      have e2 := generateAttempt_of_error client model story 2 _ h2
      have run_eq : generate_test_plan client model story = ⟨call 3, 3, [3, 3]⟩ := by
        have s1 : tenacityLoop 3 call 1 4 [] = tenacityLoop 3 call 2 3 [3] := by
          simpa using tenacityLoop_fail_step 3 call 1 3 [] _ e1 rfl
        have s2 : tenacityLoop 3 call 2 3 [3] = tenacityLoop 3 call 3 2 [3, 3] := by
          simpa using tenacityLoop_fail_step 3 call 2 2 [3] _ e2 rfl
        calc generate_test_plan client model story
            = tenacityLoop 3 call 1 4 [] := rfl
          _ = tenacityLoop 3 call 2 3 [3] := s1
          _ = tenacityLoop 3 call 3 2 [3, 3] := s2
          _ = ⟨call 3, 3, [3, 3]⟩ := by rw [hattempt]; exact tenacityLoop_ok 3 call 3 2 [3, 3] _ hattempt
      exact ⟨by rw [run_eq], by rw [run_eq], ⟨_, by rw [run_eq, hattempt]⟩⟩
    · obtain ⟨m1, h1⟩ := herr 1 (by omega) (by omega)
      obtain ⟨m2, h2⟩ := herr 2 (by omega) (by omega)
      obtain ⟨m3, h3⟩ := herr 3 (by omega) (by omega)
      have e1 := generateAttempt_of_error client model story 1 _ h1
      have e2 := generateAttempt_of_error client model story 2 _ h2
      have e3 := generateAttempt_of_error client model story 3 _ h3
      have run_eq : generate_test_plan client model story = ⟨call 4, 4, [3, 3, 3]⟩ := by
        have s1 : tenacityLoop 3 call 1 4 [] = tenacityLoop 3 call 2 3 [3] := by
          simpa using tenacityLoop_fail_step 3 call 1 3 [] _ e1 rfl
        have s2 : tenacityLoop 3 call 2 3 [3] = tenacityLoop 3 call 3 2 [3, 3] := by
          simpa using tenacityLoop_fail_step 3 call 2 2 [3] _ e2 rfl
        have s3 : tenacityLoop 3 call 3 2 [3, 3] = tenacityLoop 3 call 4 1 [3, 3, 3] := by
          simpa using tenacityLoop_fail_step 3 call 3 1 [3, 3] _ e3 rfl
        calc generate_test_plan client model story
            = tenacityLoop 3 call 1 4 [] := rfl
          _ = tenacityLoop 3 call 2 3 [3] := s1
          _ = tenacityLoop 3 call 3 2 [3, 3] := s2
          _ = tenacityLoop 3 call 4 1 [3, 3, 3] := s3
          _ = ⟨call 4, 4, [3, 3, 3]⟩ := by
              rw [hattempt]; exact tenacityLoop_ok 3 call 4 1 [3, 3, 3] _ hattempt
      exact ⟨by rw [run_eq], by rw [run_eq], ⟨_, by rw [run_eq, hattempt]⟩⟩
    · obtain ⟨m1, h1⟩ := herr 1 (by omega) (by omega)
      obtain ⟨m2, h2⟩ := herr 2 (by omega) (by omega)
      obtain ⟨m3, h3⟩ := herr 3 (by omega) (by omega)
      obtain ⟨m4, h4⟩ := herr 4 (by omega) (by omega)
      have e1 := generateAttempt_of_error client model story 1 _ h1
      have e2 := generateAttempt_of_error client model story 2 _ h2
      have e3 := generateAttempt_of_error client model story 3 _ h3
      have e4 := generateAttempt_of_error client model story 4 _ h4
      have run_eq : generate_test_plan client model story = ⟨call 5, 5, [3, 3, 3, 3]⟩ := by
        have s1 : tenacityLoop 3 call 1 4 [] = tenacityLoop 3 call 2 3 [3] := by
          simpa using tenacityLoop_fail_step 3 call 1 3 [] _ e1 rfl
        have s2 : tenacityLoop 3 call 2 3 [3] = tenacityLoop 3 call 3 2 [3, 3] := by
          simpa using tenacityLoop_fail_step 3 call 2 2 [3] _ e2 rfl
        have s3 : tenacityLoop 3 call 3 2 [3, 3] = tenacityLoop 3 call 4 1 [3, 3, 3] := by
          simpa using tenacityLoop_fail_step 3 call 3 1 [3, 3] _ e3 rfl
        have s4 : tenacityLoop 3 call 4 1 [3, 3, 3] = tenacityLoop 3 call 5 0 [3, 3, 3, 3] := by
          simpa using tenacityLoop_fail_step 3 call 4 0 [3, 3, 3] _ e4 rfl
        calc generate_test_plan client model story
            = tenacityLoop 3 call 1 4 [] := rfl
          _ = tenacityLoop 3 call 2 3 [3] := s1
          _ = tenacityLoop 3 call 3 2 [3, 3] := s2
          _ = tenacityLoop 3 call 4 1 [3, 3, 3] := s3
          _ = tenacityLoop 3 call 5 0 [3, 3, 3, 3] := s4
          _ = ⟨call 5, 5, [3, 3, 3, 3]⟩ := by
              rw [hattempt]; exact tenacityLoop_ok 3 call 5 0 [3, 3, 3, 3] _ hattempt
      exact ⟨by rw [run_eq], by rw [run_eq], ⟨_, by rw [run_eq, hattempt]⟩⟩

/-- A client whose generation endpoint always raises `ollama.ResponseError`. -/
def clientAllRespErr : OllamaClient where
  listModels := Except.ok ["phi3:mini"]
  pullEvents := Except.ok []
  generate := fun _ _ => Except.error (GenError.responseError "boom")

theorem retry_policy_c1_witness :
    (generate_test_plan clientAllRespErr "phi3:mini" "story").attempts = 5 ∧
    (generate_test_plan clientAllRespErr "phi3:mini" "story").sleeps = [3, 3, 3, 3] ∧
    (generate_test_plan clientAllRespErr "phi3:mini" "story").result =
      Except.error (GenError.responseError "boom") := by
  have h := (retry_policy_c1 clientAllRespErr "phi3:mini" "story").1
    (fun n _ _ => ⟨"boom", rfl⟩)
  exact ⟨h.1, h.2.1, h.2.2 "boom" rfl⟩

/-- Claim C2: an error of any kind other than `ollama.ResponseError` raised
during a generation attempt is not retried: the invoker performs exactly one
attempt, sleeps never, and propagates that error immediately. -/
theorem transport_no_retry_c2 (client : OllamaClient) (model story : String)
    (e : GenError) (he : isRetryableError e = false)
    (h1 : client.generate (mkGenerationRequest model story) 1 = Except.error e) :
    (generate_test_plan client model story).attempts = 1 ∧
    (generate_test_plan client model story).sleeps = [] ∧
    (generate_test_plan client model story).result = Except.error e := by
  have e1 := generateAttempt_of_error client model story 1 _ h1
  have run_eq : generate_test_plan client model story = ⟨Except.error e, 1, []⟩ :=
    tenacityLoop_fail_noretry 3 (generateAttempt client model story) 1 4 [] e e1 he
  exact ⟨by rw [run_eq], by rw [run_eq], by rw [run_eq]⟩

/-- A client whose generation endpoint raises a transport-level error
(connection refused), which is not an `ollama.ResponseError`. -/
def clientTransportErr : OllamaClient where
  listModels := Except.ok ["phi3:mini"]
  pullEvents := Except.ok []
  generate := fun _ _ => Except.error (GenError.otherError "ConnectError" "connection refused")

theorem transport_no_retry_c2_witness :
    (generate_test_plan clientTransportErr "phi3:mini" "story").attempts = 1 ∧
    (generate_test_plan clientTransportErr "phi3:mini" "story").sleeps = [] ∧
    (generate_test_plan clientTransportErr "phi3:mini" "story").result =
      Except.error (GenError.otherError "ConnectError" "connection refused") :=
  transport_no_retry_c2 clientTransportErr "phi3:mini" "story"
    (GenError.otherError "ConnectError" "connection refused") rfl rfl

/-- Claim C3 counterexample: the input `"a ``` b"` contains a single generic
fence delimiter and no delimiter pair, so the claim's ordered rules return the
raw text unchanged; the code instead returns `"b"` (the trimmed text after the
lone delimiter). -/
theorem extraction_rules_c3_counterexample :
    extractPayload ("a ``` b".toList) = some ("b".toList) ∧
    "b".toList ≠ "a ``` b".toList := by
  constructor
  · rw [extractPayload_eq_extractSpec]
    decide
  · decide

/-- Claim C3 (amended): payload extraction applies ordered rules, first match
wins: if the text contains a gherkin-tagged fence opener, the result is the
text after the first such opener (truncated before a second gherkin opener, if
any), truncated at the first closing delimiter, trimmed; else if the text
contains any generic fence delimiter — paired or not — the result is the text
between the first delimiter and the next one (to the end of the text if there
is no second), trimmed; else the raw text is returned unchanged. Only the
first fenced block is ever selected (`extractSpec` is the first-occurrence
description, proved to agree with the code everywhere). -/
theorem extraction_rules_c3_amended (t : List Char) :
    extractPayload t = some (extractSpec t) :=
  extractPayload_eq_extractSpec t

/-- Claim C4 counterexample: on the unterminated fence
`"```gherkin\nFeature: W"` (no closing delimiter) extraction does not fall
back to the raw text: it returns `"Feature: W"`, the trimmed text after the
opener. -/
theorem unterminated_fence_c4_counterexample :
    extractPayload ("```gherkin\nFeature: W".toList) = some ("Feature: W".toList) ∧
    extractPayload ("```gherkin\nFeature: W".toList) ≠
      some ("```gherkin\nFeature: W".toList) := by
  constructor
  · rw [extractPayload_eq_extractSpec]
    decide
  · rw [extractPayload_eq_extractSpec]
    decide

/-- Claim C4 (amended): on an input containing a gherkin fence opener with no
closing delimiter after it, extraction does not raise and never indexes past
the end of the string — but instead of falling back to the raw text it returns
the text after the opener, whitespace-trimmed. -/
theorem unterminated_fence_c4_amended (t : List Char)
    (hg : containsSub gherkinOpen t = true)
    (hn : containsSub fenceDelim (afterFirst gherkinOpen t) = false) :
    (extractPayload t).isSome = true ∧
    extractPayload t = some (pyStrip (afterFirst gherkinOpen t)) := by
  have hpre : fenceDelim.isPrefixOf gherkinOpen = true := by decide
  have hng : containsSub gherkinOpen (afterFirst gherkinOpen t) = false := by
    cases h : containsSub gherkinOpen (afterFirst gherkinOpen t)
    · rfl
    · have := containsSub_of_prefix fenceDelim gherkinOpen hpre _ h
      rw [hn] at this
      exact absurd this (by simp)
  have h1 : beforeFirst gherkinOpen (afterFirst gherkinOpen t) = afterFirst gherkinOpen t :=
    beforeFirst_of_not_contains gherkinOpen _ hng
  have h2 : beforeFirst fenceDelim (afterFirst gherkinOpen t) = afterFirst gherkinOpen t :=
    beforeFirst_of_not_contains fenceDelim _ hn
  rw [extractPayload_gherkin t hg, h1, h2]
  exact ⟨rfl, rfl⟩

theorem unterminated_fence_c4_amended_witness :
    (extractPayload ("```gherkin\nFeature: V".toList)).isSome = true ∧
    extractPayload ("```gherkin\nFeature: V".toList) =
      some (pyStrip (afterFirst gherkinOpen ("```gherkin\nFeature: V".toList))) :=
  unterminated_fence_c4_amended _ (by decide) (by decide)

/-- Claim C5: when the identifier is among the listed local model names, the
availability checker succeeds immediately without initiating a pull (and,
the check being a pure function of the registry listing, any repeated call
with the identifier still present pulls nothing either); membership is exact
string equality, so an identifier absent from the listing — even when a
differently-normalized form of it is present — always triggers a pull. -/
theorem availability_exact_match_c5 (client : OllamaClient) (model : String)
    (names : List String) (hl : client.listModels = Except.ok names) :
    (model ∈ names →
      (ensure_model_available client model).pulled = false ∧
      (ensure_model_available client model).result = Except.ok ()) ∧
    (model ∉ names → (ensure_model_available client model).pulled = true) := by
  constructor
  · intro hm
    simp [ensure_model_available, hl, hm]
  · intro hm
    simp only [ensure_model_available, hl]
    rw [if_neg hm]
    cases hp : client.pullEvents <;> simp

/-- A client whose registry lists exactly `"phi3:mini"`. -/
def clientModelPresent : OllamaClient where
  listModels := Except.ok ["phi3:mini"]
  pullEvents := Except.ok []
  generate := fun _ _ => Except.error (GenError.responseError "unused")

theorem availability_exact_match_c5_witness :
    ((ensure_model_available clientModelPresent "phi3:mini").pulled = false ∧
     (ensure_model_available clientModelPresent "phi3:mini").result = Except.ok ()) ∧
    (ensure_model_available clientModelPresent "phi3").pulled = true := by
  have h1 := availability_exact_match_c5 clientModelPresent "phi3:mini" ["phi3:mini"] rfl
  have h2 := availability_exact_match_c5 clientModelPresent "phi3" ["phi3:mini"] rfl
  exact ⟨h1.1 (by decide), h2.2 (by decide)⟩

/-- A client with an empty registry whose pull stream carries two progress
events with `(completed, total)` fields set. -/
def clientPullStream : OllamaClient where
  listModels := Except.ok []
  pullEvents := Except.ok
    [⟨some "sha256:aaa", some 5, some 10⟩, ⟨some "sha256:bbb", some 10, some 10⟩]
  generate := fun _ _ => Except.error (GenError.responseError "unused")

/-- Claim C6 counterexample: pulling with a stream of two events carrying
`(completed, total) = (5, 10)` then `(10, 10)`, the checker's emitted events
contain no progress update keyed by `(completed, total)` at all — only the
pull banner and the completion report carrying the last digest. -/
theorem pull_progress_c6_counterexample :
    (ensure_model_available clientPullStream "phi3:mini").logs =
      [LogEvent.pullingModel "phi3:mini",
       LogEvent.modelPulled "phi3:mini" "sha256:bbb"] ∧
    LogEvent.pullProgress 5 10 ∉ (ensure_model_available clientPullStream "phi3:mini").logs ∧
    LogEvent.pullProgress 10 10 ∉ (ensure_model_available clientPullStream "phi3:mini").logs := by
  decide

/-- Claim C6 (amended): when the artifact is absent the checker initiates a
streamed pull and consumes the event stream to exhaustion, tracking the most
recently seen non-empty digest value, which it reports in the completion
event; it updates no per-event progress indicator keyed by
`(completed, total)`. -/
theorem pull_stream_digest_c6_amended (client : OllamaClient) (model : String)
    (names : List String) (events : List PullEvent)
    (hl : client.listModels = Except.ok names) (hm : model ∉ names)
    (hp : client.pullEvents = Except.ok events) :
    (ensure_model_available client model).pulled = true ∧
    (ensure_model_available client model).logs =
      [LogEvent.pullingModel model, LogEvent.modelPulled model (lastDigestSpec events)] ∧
    ∀ c t, LogEvent.pullProgress c t ∉ (ensure_model_available client model).logs := by
  have hens : ensure_model_available client model =
      { result := .ok (), pulled := true,
        logs := [.pullingModel model, .modelPulled model (finalDigest events)] } := by
    simp only [ensure_model_available, hl]
    rw [if_neg hm, hp]
  rw [hens, finalDigest_eq_lastDigestSpec]
  refine ⟨rfl, rfl, ?_⟩
  intro c t
  simp

theorem pull_stream_digest_c6_amended_witness :
    (ensure_model_available clientPullStream "phi3:mini").pulled = true ∧
    (ensure_model_available clientPullStream "phi3:mini").logs =
      [LogEvent.pullingModel "phi3:mini",
       LogEvent.modelPulled "phi3:mini"
         (lastDigestSpec
           [⟨some "sha256:aaa", some 5, some 10⟩, ⟨some "sha256:bbb", some 10, some 10⟩])] ∧
    ∀ c t, LogEvent.pullProgress c t ∉ (ensure_model_available clientPullStream "phi3:mini").logs :=
  pull_stream_digest_c6_amended clientPullStream "phi3:mini" [] _ rfl (by decide) rfl

/-- Claim C7: every exception raised while listing local models or pulling the
artifact is fatal at the availability-checker layer: no retry is attempted
there (the emitted events show exactly one listing/pull sequence), a
diagnostic naming the failing model identifier is emitted, the error
propagates to the orchestrator, and the process exits with a non-zero
status. -/
theorem registry_failure_fatal_c7 (client : OllamaClient) (model story : String) :
    (∀ e, client.listModels = Except.error e →
      (ensure_model_available client model).result = Except.error e ∧
      (ensure_model_available client model).pulled = false ∧
      (ensure_model_available client model).logs = [LogEvent.pullFailed model] ∧
      (runAgent client model story).exitCode = 1) ∧
    (∀ e names, client.listModels = Except.ok names → model ∉ names →
      client.pullEvents = Except.error e →
      (ensure_model_available client model).result = Except.error e ∧
      (ensure_model_available client model).logs =
        [LogEvent.pullingModel model, LogEvent.pullFailed model] ∧
      (runAgent client model story).exitCode = 1) := by
  constructor
  · intro e he
    have hens : ensure_model_available client model =
        { result := .error e, pulled := false, logs := [.pullFailed model] } := by
      simp [ensure_model_available, he]
    refine ⟨by rw [hens], by rw [hens], by rw [hens], ?_⟩
    cases e <;> simp [runAgent, hens]
  · intro e names hl hm hp
    have hens : ensure_model_available client model =
        { result := .error e, pulled := true,
          logs := [.pullingModel model, .pullFailed model] } := by
      simp only [ensure_model_available, hl]
      rw [if_neg hm, hp]
    refine ⟨by rw [hens], by rw [hens], ?_⟩
    cases e <;> simp [runAgent, hens]

/-- A client for which listing the local models raises. -/
def clientRegistryDown : OllamaClient where
  listModels := Except.error (GenError.otherError "ConnectionError" "registry unreachable")
  pullEvents := Except.error (GenError.otherError "ConnectionError" "registry unreachable")
  generate := fun _ _ => Except.error (GenError.responseError "unused")

theorem registry_failure_fatal_c7_witness :
    (ensure_model_available clientRegistryDown "phi3:mini").result =
      Except.error (GenError.otherError "ConnectionError" "registry unreachable") ∧
    (ensure_model_available clientRegistryDown "phi3:mini").pulled = false ∧
    (ensure_model_available clientRegistryDown "phi3:mini").logs =
      [LogEvent.pullFailed "phi3:mini"] ∧
    (runAgent clientRegistryDown "phi3:mini" "story").exitCode = 1 :=
  (registry_failure_fatal_c7 clientRegistryDown "phi3:mini" "story").1 _ rfl

/-- Claim C8: the generation request carries the user-story text and the fixed
system instruction block as two independent parameters (`prompt` and `system`,
never concatenated into one string) and requests streaming disabled; each
attempt then applies payload extraction to the complete response string. -/
theorem request_channels_c8 (model story : String) :
    (mkGenerationRequest model story).prompt = story ∧
    (mkGenerationRequest model story).system = SYSTEM_PROMPT ∧
    (mkGenerationRequest model story).stream = false ∧
    ∀ (client : OllamaClient) (n : Nat) (resp : GenerationResponse),
      client.generate (mkGenerationRequest model story) n = Except.ok resp →
      generateAttempt client model story n =
        Except.ok (String.mk (extractSpec (resp.response.getD "").toList)) :=
  ⟨rfl, rfl, rfl, fun client n resp h => generateAttempt_of_ok client model story n resp h⟩

/-- A client whose generation endpoint returns a plain unfenced response. -/
def clientPlainResponse : OllamaClient where
  listModels := Except.ok ["phi3:mini"]
  pullEvents := Except.ok []
  generate := fun _ _ => Except.ok ⟨some "hello"⟩

theorem request_channels_c8_witness :
    (mkGenerationRequest "phi3:mini" "story").stream = false ∧
    generateAttempt clientPlainResponse "phi3:mini" "story" 1 =
      Except.ok (String.mk (extractSpec ((some "hello" : Option String).getD "").toList)) := by
  have h := request_channels_c8 "phi3:mini" "story"
  exact ⟨h.2.2.1, h.2.2.2 clientPlainResponse 1 ⟨some "hello"⟩ rfl⟩

/-- Claim C9: if the generation response lacks the `"response"` field
entirely, the invoker treats it as the empty string and the attempt returns an
empty payload without raising any error. -/
theorem missing_response_field_c9 (client : OllamaClient) (model story : String)
    (n : Nat) (resp : GenerationResponse)
    (hr : client.generate (mkGenerationRequest model story) n = Except.ok resp)
    (hnone : resp.response = none) :
    generateAttempt client model story n = Except.ok "" := by
  have h := generateAttempt_of_ok client model story n resp hr
  rw [hnone] at h
  have hempty : String.mk (extractSpec ((none : Option String).getD "").toList) = "" := by
    decide
  rw [h, hempty]

/-- A client whose generation response carries no `"response"` key. -/
def clientNoResponseField : OllamaClient where
  listModels := Except.ok ["phi3:mini"]
  pullEvents := Except.ok []
  generate := fun _ _ => Except.ok ⟨none⟩

theorem missing_response_field_c9_witness :
    generateAttempt clientNoResponseField "phi3:mini" "story" 1 = Except.ok "" :=
  missing_response_field_c9 clientNoResponseField "phi3:mini" "story" 1 ⟨none⟩ rfl rfl

/-! ### Character-level lemmas for the language-tag claim -/

/-- The backtick character, obtained from a string literal. -/
def btick : Char := "`".toList.headD ' '

/-- The language tag of a python-fenced block. -/
def pythonTag : List Char := "python".toList

theorem fence_isPrefixOf_false (a : Char) (ha : a ≠ btick) (u : List Char) :
    fenceDelim.isPrefixOf (a :: u) = false := by
  have hfd : fenceDelim = btick :: btick :: btick :: [] := by decide
  have hb : (btick == a) = false := beq_eq_false_iff_ne.mpr fun h => ha h.symm
  rw [hfd]
  simp [List.isPrefixOf, hb]

theorem beforeFirst_fence_cons (a : Char) (u : List Char)
    (ha : fenceDelim.isPrefixOf (a :: u) = false) :
    beforeFirst fenceDelim (a :: u) = a :: beforeFirst fenceDelim u := by
  rw [beforeFirst, if_neg (by simp [ha])]

theorem stripLeft_cons_nonspace (a : Char) (u : List Char) (ha : pyIsSpace a = false) :
    stripLeft (a :: u) = a :: u := by
  simp [stripLeft, List.dropWhile_cons, ha]

theorem stripRight_cons_nonspace (a : Char) (u : List Char) (ha : pyIsSpace a = false) :
    stripRight (a :: u) = a :: stripRight u := by
  rw [stripRight, stripRight, List.reverse_cons, List.dropWhile_append]
  by_cases h : (u.reverse.dropWhile pyIsSpace).isEmpty = true
  · rw [if_pos h]
    have h2 : List.dropWhile pyIsSpace [a] = [a] := by
      simp [List.dropWhile_cons, ha]
    have h3 : u.reverse.dropWhile pyIsSpace = [] := by
      simpa [List.isEmpty_iff] using h
    rw [h2, h3]
    rfl
  · rw [if_neg h, List.reverse_append]
    simp

theorem beforeFirst_fence_pythonTag (v : List Char) :
    beforeFirst fenceDelim (pythonTag ++ v) = pythonTag ++ beforeFirst fenceDelim v := by
  have hpt : pythonTag = 'p' :: 'y' :: 't' :: 'h' :: 'o' :: 'n' :: [] := by decide
  rw [hpt]
  simp only [List.cons_append, List.nil_append]
  rw [beforeFirst_fence_cons _ _ (fence_isPrefixOf_false 'p' (by decide) _),
    beforeFirst_fence_cons _ _ (fence_isPrefixOf_false 'y' (by decide) _),
    beforeFirst_fence_cons _ _ (fence_isPrefixOf_false 't' (by decide) _),
    beforeFirst_fence_cons _ _ (fence_isPrefixOf_false 'h' (by decide) _),
    beforeFirst_fence_cons _ _ (fence_isPrefixOf_false 'o' (by decide) _),
    beforeFirst_fence_cons _ _ (fence_isPrefixOf_false 'n' (by decide) _)]

theorem pyStrip_pythonTag_append (v : List Char) :
    ∃ w, pyStrip (pythonTag ++ v) = pythonTag ++ w := by
  have hpt : pythonTag = 'p' :: 'y' :: 't' :: 'h' :: 'o' :: 'n' :: [] := by decide
  rw [hpt]
  simp only [List.cons_append, List.nil_append]
  rw [pyStrip, stripLeft_cons_nonspace _ _ (by decide)]
  rw [stripRight_cons_nonspace _ _ (by decide), stripRight_cons_nonspace _ _ (by decide),
    stripRight_cons_nonspace _ _ (by decide), stripRight_cons_nonspace _ _ (by decide),
    stripRight_cons_nonspace _ _ (by decide), stripRight_cons_nonspace _ _ (by decide)]
  exact ⟨stripRight v, rfl⟩

/-- Claim C10: for an input containing no gherkin-tagged fence whose first
generic fence is tagged `python`, extraction falls to the generic-fence
branch, so the tag word itself starts the extracted payload. -/
theorem generic_fence_language_tag_c10 (t : List Char)
    (hg : containsSub gherkinOpen t = false)
    (hf : containsSub fenceDelim t = true)
    (hpy : ∃ v, afterFirst fenceDelim t = pythonTag ++ v) :
    ∃ w, extractPayload t = some (pythonTag ++ w) := by
  obtain ⟨v, hv⟩ := hpy
  rw [extractPayload_generic t hg hf, hv, beforeFirst_fence_pythonTag v]
  obtain ⟨w, hw⟩ := pyStrip_pythonTag_append (beforeFirst fenceDelim v)
  exact ⟨w, by rw [hw]⟩

theorem generic_fence_language_tag_c10_witness :
    ∃ w, extractPayload ("x ```python\nprint(1)\n``` y".toList) =
      some (pythonTag ++ w) :=
  generic_fence_language_tag_c10 _ (by decide) (by decide)
    ⟨"\nprint(1)\n``` y".toList, by decide⟩

end BuilditAgent
